import Mathlib

/-!
Verification of the mw-cas repository: a lock-free multi-word
compare-and-swap (MCAS/CASN) built from single-word CAS via tagged
descriptor pointers.  The definitions below are a shallow embedding of
the Rust sources: machine words (`usize`) are modelled as `Nat`, the
bit operations are the corresponding `Nat` operations, and the
sequential (uncontended, single-thread) executions of the protocol are
modelled as pure state-passing functions.
-/

namespace MwCas

/-! ### Generic bit-manipulation lemmas used throughout -/

theorem hi_extract (b a k : Nat) (h : a < 2 ^ k) :
    ((b <<< k) ||| a) >>> k = b := by
  apply Nat.eq_of_testBit_eq
  intro i
  rw [Nat.testBit_shiftRight, Nat.testBit_or, Nat.testBit_shiftLeft]
  have ha : a < 2 ^ (k + i) :=
    lt_of_lt_of_le h (Nat.pow_le_pow_right (by norm_num) (Nat.le_add_right _ _))
  rw [Nat.testBit_lt_two_pow ha]
  simp

theorem lo_extract (b a k : Nat) (h : a < 2 ^ k) :
    ((b <<< k) ||| a) &&& (2 ^ k - 1) = a := by
  apply Nat.eq_of_testBit_eq
  intro i
  rw [Nat.testBit_and, Nat.testBit_or, Nat.testBit_shiftLeft,
    Nat.testBit_two_pow_sub_one]
  by_cases hik : i < k
  · have hki : ¬ k ≤ i := by omega
    simp [hik, hki]
  · have ha : a < 2 ^ i :=
      lt_of_lt_of_le h (Nat.pow_le_pow_right (by norm_num) (by omega))
    simp [hik, Nat.testBit_lt_two_pow ha]

theorem lor_shl_add (b a k : Nat) (h : a < 2 ^ k) :
    (b <<< k) ||| a = 2 ^ k * b + a := by
  have hd := Nat.div_add_mod ((b <<< k) ||| a) (2 ^ k)
  rw [← Nat.shiftRight_eq_div_pow, ← Nat.and_pow_two_sub_one_eq_mod,
    hi_extract b a k h, lo_extract b a k h] at hd
  omega

theorem shl_and_mask (x k j : Nat) (h : j ≤ k) :
    (x <<< k) &&& (2 ^ j - 1) = 0 := by
  rw [Nat.and_pow_two_sub_one_eq_mod, Nat.shiftLeft_eq]
  have hk : 2 ^ k = 2 ^ j * 2 ^ (k - j) := by
    rw [← pow_add]
    congr 1
    omega
  rw [hk, ← Nat.mul_assoc, Nat.mul_comm x (2 ^ j), Nat.mul_assoc]
  exact Nat.mul_mod_right _ _

theorem small_and_mask (a j : Nat) (h : a < 2 ^ j) : a &&& (2 ^ j - 1) = a := by
  rw [Nat.and_pow_two_sub_one_eq_mod]
  exact Nat.mod_eq_of_lt h

/-! ### CasWord (src/casword.rs)

`CasWord` is a raw 64-bit word.  `SHIFT = 2` reserved low bits;
`SeqNumber::LENGTH = 48`.  A descriptor pointer packs
`[tid:14 | seq:48 | mark:2]`. -/

/-- CasWord.new_descriptor_ptr: `tid.as_u16() << (48 + 2) | seq << 2`. -/
def casWordNewDescriptorPtr (tid seq : Nat) : Nat :=
  ((tid % 65536) <<< 50) ||| (seq <<< 2)

/-- CasWord.tid: `(w >> (48 + 2)) as u16`. -/
def casWordTid (w : Nat) : Nat :=
  (w >>> 50) % 65536

/-- CasWord.seq: `(w & ((1 << 50) - 1)) >> 2`. -/
def casWordSeq (w : Nat) : Nat :=
  (w &&& ((1 <<< 50) - 1)) >>> 2

/-- CasWord.with_mark: `w | (mark & (SHIFT + 1))` with `SHIFT = 2`. -/
def casWordWithMark (w mark : Nat) : Nat :=
  w ||| (mark &&& 3)

/-- CasWord.mark: `w & (SHIFT + 1)` with `SHIFT = 2`. -/
def casWordMark (w : Nat) : Nat :=
  w &&& 3

/-- From<usize> for CasWord: `r << SHIFT`. -/
def usizeToCasWord (r : Nat) : Nat := r <<< 2

/-- From<CasWord> for usize: `w >> SHIFT`. -/
def casWordToUsize (w : Nat) : Nat := w >>> 2

/-! ### MarkedPtr (src/descriptor.rs)

The older encoding: `NUM_RESERVED_BITS = 3`, `SEQ_NUMBER_LENGTH = 50`.
`new` packs `tid << 50 | seq << 3`; `seq()` reads
`(w & ((1 << 50) - 1)) >> 3`, so only 47 bits of `seq` survive. -/

/-- MarkedPtr.new: `tid.as_u16() << 50 | seq << 3`. -/
def markedPtrNew (tid seq : Nat) : Nat :=
  ((tid % 65536) <<< 50) ||| (seq <<< 3)

/-- MarkedPtr.tid: `(w >> 50) as u16`. -/
def markedPtrTid (w : Nat) : Nat :=
  (w >>> 50) % 65536

/-- MarkedPtr.seq: `(w & ((1 << 50) - 1)) >> 3`. -/
def markedPtrSeq (w : Nat) : Nat :=
  (w &&& ((1 <<< 50) - 1)) >>> 3

/-- MarkedPtr.with_mark: `w | (mark & NUM_RESERVED_BITS)` with
`NUM_RESERVED_BITS = 3`. -/
def markedPtrWithMark (w mark : Nat) : Nat :=
  w ||| (mark &&& 3)

/-- MarkedPtr.mark: `w & NUM_RESERVED_BITS` with `NUM_RESERVED_BITS = 3`. -/
def markedPtrMark (w : Nat) : Nat :=
  w &&& 3

/-! ### Generic packing lemmas for the `[tid | seq << sh]` encodings -/

theorem pack_sum (tid seq sh : Nat) (htid : tid < 2 ^ 14)
    (hseq : seq <<< sh < 2 ^ 50) :
    ((tid % 65536) <<< 50) ||| (seq <<< sh) = 2 ^ 50 * tid + 2 ^ sh * seq := by
  rw [lor_shl_add _ _ _ hseq, Nat.mod_eq_of_lt (by omega), Nat.shiftLeft_eq,
    Nat.mul_comm seq]

theorem pack_tid (tid seq sh : Nat) (htid : tid < 2 ^ 14)
    (hseq : seq <<< sh < 2 ^ 50) :
    ((((tid % 65536) <<< 50) ||| (seq <<< sh)) >>> 50) % 65536 = tid := by
  rw [hi_extract _ _ _ hseq, Nat.mod_mod_of_dvd, Nat.mod_eq_of_lt (by omega)]
  norm_num

theorem pack_seq (tid seq sh : Nat) (hseq : seq <<< sh < 2 ^ 50) :
    ((((tid % 65536) <<< 50) ||| (seq <<< sh)) &&& ((1 <<< 50) - 1)) >>> sh
      = seq := by
  rw [Nat.one_shiftLeft, lo_extract _ _ _ hseq, Nat.shiftLeft_eq,
    Nat.shiftRight_eq_div_pow, Nat.mul_div_cancel _ (Nat.pos_pow_of_pos _ (by norm_num))]

theorem pack_mark (tid seq sh t : Nat) (hsh : 2 ≤ sh) (ht : t < 4) :
    (((((tid % 65536) <<< 50) ||| (seq <<< sh)) ||| (t &&& 3)) &&& 3) = t := by
  have h3 : (3 : Nat) = 2 ^ 2 - 1 := by norm_num
  have ht2 : t < 2 ^ 2 := by omega
  rw [h3, small_and_mask t 2 ht2, Nat.and_distrib_right, Nat.and_distrib_right,
    shl_and_mask _ _ _ (by omega : 2 ≤ 50), shl_and_mask _ _ _ hsh,
    small_and_mask t 2 ht2]
  simp

theorem pack_low_or (tid seq sh t : Nat) (ht : t < 4) :
    ((((tid % 65536) <<< 50) ||| (seq <<< sh)) ||| (t &&& 3))
      = ((tid % 65536) <<< 50) ||| ((seq <<< sh) ||| t) := by
  have h3 : (3 : Nat) = 2 ^ 2 - 1 := by norm_num
  rw [h3, small_and_mask t 2 (by omega), Nat.or_assoc]

theorem pack_tid_marked (tid seq sh t : Nat) (htid : tid < 2 ^ 14)
    (hseq : seq <<< sh < 2 ^ 50) (ht : t < 4) :
    ((((((tid % 65536) <<< 50) ||| (seq <<< sh)) ||| (t &&& 3)) >>> 50) % 65536)
      = tid := by
  rw [pack_low_or tid seq sh t ht,
    hi_extract _ _ _ (Nat.or_lt_two_pow hseq (by omega)),
    Nat.mod_mod_of_dvd, Nat.mod_eq_of_lt (by omega)]
  norm_num

theorem pack_seq_marked (tid seq sh t : Nat) (hsh : 2 ≤ sh)
    (hseq : seq <<< sh < 2 ^ 50) (ht : t < 4) :
    (((((((tid % 65536) <<< 50) ||| (seq <<< sh)) ||| (t &&& 3)))
        &&& ((1 <<< 50) - 1)) >>> sh) = seq := by
  rw [pack_low_or tid seq sh t ht, Nat.one_shiftLeft,
    lo_extract _ _ _ (Nat.or_lt_two_pow hseq (by omega))]
  have htsh : t < 2 ^ sh :=
    lt_of_lt_of_le (by omega : t < 2 ^ 2) (Nat.pow_le_pow_right (by norm_num) hsh)
  exact hi_extract _ _ _ htsh

/-- C5 counterexample: in the `MarkedPtr` encoding of src/descriptor.rs the
sequence number is shifted by 3 (not 2) and masked to 50 bits, so for
`tid = 0, seq = 2^47` the round-trip fails: `seq()` returns `0` and `tid()`
returns `1`, refuting the claimed layout and round-trip over seq < 2^48. -/
theorem c5_counterexample :
    ¬ (markedPtrSeq (markedPtrNew 0 (2 ^ 47)) = 2 ^ 47 ∧
       markedPtrTid (markedPtrNew 0 (2 ^ 47)) = 0) := by
  decide

/-- C5 (amended): the round-trip as claimed holds in full for the `CasWord`
encoding of src/casword.rs (tag bits 0-1, seq bits 2..50, tid top 14 bits,
for all tid < 2^14, seq < 2^48, tag t < 3); for the `MarkedPtr` encoding of
src/descriptor.rs the seq field occupies bits 3..50, so the round-trip only
holds for seq < 2^47. -/
theorem c5_tag_roundtrip_amended (tid seq t : Nat)
    (htid : tid < 2 ^ 14) (hseq : seq < 2 ^ 48) (ht : t < 3) :
    casWordNewDescriptorPtr tid seq = 2 ^ 50 * tid + 2 ^ 2 * seq ∧
    casWordTid (casWordNewDescriptorPtr tid seq) = tid ∧
    casWordSeq (casWordNewDescriptorPtr tid seq) = seq ∧
    casWordMark (casWordWithMark (casWordNewDescriptorPtr tid seq) t) = t ∧
    casWordTid (casWordWithMark (casWordNewDescriptorPtr tid seq) t) = tid ∧
    casWordSeq (casWordWithMark (casWordNewDescriptorPtr tid seq) t) = seq ∧
    (seq < 2 ^ 47 →
      markedPtrNew tid seq = 2 ^ 50 * tid + 2 ^ 3 * seq ∧
      markedPtrTid (markedPtrNew tid seq) = tid ∧
      markedPtrSeq (markedPtrNew tid seq) = seq ∧
      markedPtrMark (markedPtrWithMark (markedPtrNew tid seq) t) = t ∧
      markedPtrTid (markedPtrWithMark (markedPtrNew tid seq) t) = tid ∧
      markedPtrSeq (markedPtrWithMark (markedPtrNew tid seq) t) = seq) := by
  have h2 : seq <<< 2 < 2 ^ 50 := by
    rw [Nat.shiftLeft_eq]
    omega
  have ht4 : t < 4 := by omega
  refine ⟨pack_sum tid seq 2 htid h2, pack_tid tid seq 2 htid h2,
    pack_seq tid seq 2 h2, pack_mark tid seq 2 t (by omega) ht4,
    pack_tid_marked tid seq 2 t htid h2 ht4,
    pack_seq_marked tid seq 2 t (by omega) h2 ht4, ?_⟩
  intro hseq47
  have h3 : seq <<< 3 < 2 ^ 50 := by
    rw [Nat.shiftLeft_eq]
    omega
  exact ⟨pack_sum tid seq 3 htid h3, pack_tid tid seq 3 htid h3,
    pack_seq tid seq 3 h3, pack_mark tid seq 3 t (by omega) ht4,
    pack_tid_marked tid seq 3 t htid h3 ht4,
    pack_seq_marked tid seq 3 t (by omega) h3 ht4⟩

/-- C5 witness: the amended round-trip instantiated at the concrete input
of the repository's own unit test (tid = 2^14 - 1, seq = 20000, tag 2). -/
theorem c5_tag_roundtrip_witness :
    casWordTid (casWordNewDescriptorPtr 16383 20000) = 16383 ∧
    casWordSeq (casWordNewDescriptorPtr 16383 20000) = 20000 := by
  have h := c5_tag_roundtrip_amended 16383 20000 2 (by norm_num) (by norm_num)
    (by norm_num)
  exact ⟨h.2.1, h.2.2.1⟩

/-! ### Cas2DescriptorStatus (src/mwcas.rs)

A status word packs `[seq:56 | state:8]` with
state UNDECIDED = 0, SUCCEEDED = 1, FAILED = 2. -/

/-- Cas2DescriptorStatus.seq_number: `s >> NUM_STATUS_BITS` (8 bits). -/
def statusSeqOf (s : Nat) : Nat := s >>> 8

/-- Cas2DescriptorStatus.status: `s & ((1 << 8) - 1)`. -/
def statusStateOf (s : Nat) : Nat := s &&& ((1 <<< 8) - 1)

/-- Cas2DescriptorStatus::undecided: `(seq << 8) | UNDECIDED`. -/
def statusUndecided (seq : Nat) : Nat := (seq <<< 8) ||| 0

/-- Cas2DescriptorStatus::succeeded: `(seq << 8) | SUCCEEDED`. -/
def statusSucceeded (seq : Nat) : Nat := (seq <<< 8) ||| 1

/-- Cas2DescriptorStatus::failed: `(seq << 8) | FAILED`. -/
def statusFailed (seq : Nat) : Nat := (seq <<< 8) ||| 2

/-- Cas2DescriptorStatus.set_failed: `failed(self.seq_number())`. -/
def statusSetFailed (s : Nat) : Nat := statusFailed (statusSeqOf s)

theorem statusSeqOf_pack (seq c : Nat) (hc : c < 256) :
    statusSeqOf ((seq <<< 8) ||| c) = seq := by
  have : c < 2 ^ 8 := by omega
  exact hi_extract seq c 8 this

theorem statusStateOf_pack (seq c : Nat) (hc : c < 256) :
    statusStateOf ((seq <<< 8) ||| c) = c := by
  have h8 : ((1 <<< 8) - 1 : Nat) = 2 ^ 8 - 1 := by decide
  have : c < 2 ^ 8 := by omega
  rw [statusStateOf, h8]
  exact lo_extract seq c 8 this

theorem statusSeqOf_undecided (seq : Nat) : statusSeqOf (statusUndecided seq) = seq :=
  statusSeqOf_pack seq 0 (by norm_num)

theorem statusSeqOf_succeeded (seq : Nat) : statusSeqOf (statusSucceeded seq) = seq :=
  statusSeqOf_pack seq 1 (by norm_num)

theorem statusSeqOf_failed (seq : Nat) : statusSeqOf (statusFailed seq) = seq :=
  statusSeqOf_pack seq 2 (by norm_num)

theorem statusStateOf_undecided (seq : Nat) : statusStateOf (statusUndecided seq) = 0 :=
  statusStateOf_pack seq 0 (by norm_num)

theorem statusStateOf_succeeded (seq : Nat) : statusStateOf (statusSucceeded seq) = 1 :=
  statusStateOf_pack seq 1 (by norm_num)

theorem statusStateOf_failed (seq : Nat) : statusStateOf (statusFailed seq) = 2 :=
  statusStateOf_pack seq 2 (by norm_num)

/-! ### Sequential model of the MCAS protocol (src/mwcas.rs)

Shared memory maps the address of each target `AtomicCasWord` to its raw
word.  The per-thread CASN slot holds the stored entries and the status
cell.  All executions modelled here are uncontended single-thread runs:
each atomic read/write happens in program order with no interference. -/

/-- Shared memory: address of an `AtomicCasWord` to its raw word. -/
def Mem : Type := Nat → Nat

/-- Pointwise store into shared memory. -/
def memUpd (m : Mem) (a v : Nat) : Mem := fun x => if x = a then v else m x

/-- One MCAS entry (struct Entry): target address, expected and new words. -/
structure MwEntry where
  addr : Nat
  exp : Nat
  new : Nat
deriving DecidableEq

/-- Per-thread CASN descriptor slot (struct ThreadCas2Descriptor): the
stored entries (`entries[0..num_entries]`, with `num_entries` =
`entries.length`) and the status cell. -/
structure Cas2Slot where
  entries : List MwEntry
  status : Nat

/-- Stable insertion of an entry by `addr` (an equal key goes after the
existing ones), used to model the stable `sort_by_key` of
`ThreadCas2Descriptor::store_entries`. -/
def insertByAddr (e : MwEntry) : List MwEntry → List MwEntry
  | [] => [e]
  | x :: xs => if x.addr ≤ e.addr then x :: insertByAddr e xs else e :: x :: xs

/-- Stable sort by `addr` (left-to-right insertion). -/
def sortEntries (l : List MwEntry) : List MwEntry :=
  l.foldl (fun acc e => insertByAddr e acc) []

/-- ThreadCas2Descriptor::inc_seq: load status, bump its seq, store
`undecided(new_seq)`. -/
def incSeq (s : Cas2Slot) : Cas2Slot :=
  { s with status := statusUndecided (statusSeqOf s.status + 1) }

/-- ThreadCas2Descriptor::store_entries: sort by address and store the
entries and their count into the slot. -/
def storeEntries (s : Cas2Slot) (es : List MwEntry) : Cas2Slot :=
  { s with entries := sortEntries es }

/-- Cas2Descriptor::make_descriptor: bump seq (invalidate), store sorted
entries, bump seq again (publish), and return
`CasWord::new_descriptor_ptr(tid, seq).with_mark(2)`. -/
def makeDescriptor (tid : Nat) (s : Cas2Slot) (es : List MwEntry) :
    Cas2Slot × Nat :=
  let s1 := incSeq s
  let s2 := storeEntries s1 es
  let s3 := incSeq s2
  let currentSeq := statusSeqOf s3.status
  (s3, casWordWithMark (casWordNewDescriptorPtr tid currentSeq) 2)

/-- Modelled from the spec: the RDCSS implementation used by src/mwcas.rs
(`RDCSS_DESCRIPTOR.rdcss(status_cell, data_addr, expected_status,
expected_data, new_data)` and its `rdcss_help`) is not under src/; this is
its sequential semantics per spec 4.5.2-4.5.3.  If the target word differs
from `expected_data` it is returned unswapped; otherwise the RDCSS
descriptor is installed and immediately helped: the target becomes
`new_data` when the status cell equals `expected_status`, else it is put
back to `expected_data` (the transient tag-1 descriptor is invisible in a
single-thread run).  Returns the swapped-out word and the new memory. -/
def rdcssSeq (statusVal expStatus : Nat) (mem : Mem) (addr expData newData : Nat) :
    Nat × Mem :=
  let cur := mem addr
  if cur = expData then
    (expData, if statusVal = expStatus then memUpd mem addr newData else mem)
  else
    (cur, mem)

/-- One iteration of the `'install_loop` of Cas2Descriptor::cas2_help for
one entry: `none` when the loop would retry (a foreign CASN descriptor was
returned, which in a single-thread run means spinning forever), otherwise
`some (installed?, memory)` where `installed? = false` means the entry
mismatched and the status must become FAILED. -/
def installEntry (statusVal expStatus descPtr : Nat) (mem : Mem) (e : MwEntry) :
    Option (Bool × Mem) :=
  let res := rdcssSeq statusVal expStatus mem e.addr e.exp descPtr
  let swapped := res.1
  if casWordMark swapped = 2 ∧ swapped ≠ descPtr then
    none
  else if swapped ≠ e.exp then
    some (false, res.2)
  else
    some (true, res.2)

/-- Phase 1 `'entry_loop` of cas2_help: install the descriptor into each
entry in order, stopping at the first mismatch. -/
def phase1 (statusVal expStatus descPtr : Nat) :
    List MwEntry → Mem → Option (Bool × Mem)
  | [], mem => some (true, mem)
  | e :: es, mem =>
    match installEntry statusVal expStatus descPtr mem e with
    | none => none
    | some (false, mem1) => some (false, mem1)
    | some (true, mem1) => phase1 statusVal expStatus descPtr es mem1

/-- ThreadCas2DescriptorSnapshot::cas_status: CAS the status cell from
`expected` to `newS` after re-checking it still equals `expected`. -/
def casStatus (current expected newS : Nat) : Nat :=
  if current = expected then newS else current

/-- Phase 2 of cas2_help: for every entry CAS its word from the descriptor
pointer to the new value (on success) or the expected value (on failure). -/
def phase2 (es : List MwEntry) (descPtr : Nat) (succeeded : Bool) (mem : Mem) :
    Mem :=
  es.foldl
    (fun m e =>
      let v := if succeeded then e.new else e.exp
      if m e.addr = descPtr then memUpd m e.addr v else m)
    mem

/-- Result of a sequential cas2_help run: `ret b` is a normal return,
`assertHelpOther` is the panic of an `assert!(help_other)` on the
stale-descriptor paths, `assertNumEntries` the panic of
`assert!(num_entries >= 2)` in try_snapshot, and `diverge` marks the
`'install_loop` spinning forever on a foreign descriptor. -/
inductive HelpRes where
  | ret (b : Bool)
  | assertHelpOther
  | assertNumEntries
  | diverge
deriving DecidableEq

/-- Full outcome of a sequential cas2_help run. -/
structure HelpOut where
  res : HelpRes
  mem : Mem
  status : Nat

/-- Tail of cas2_help after phase 1: the second try_read_status followed by
phase 2 and the final return of `succeeded`. -/
def cas2HelpTail (entries : List MwEntry) (stNow descPtr descSeq : Nat)
    (helpOther : Bool) (mem : Mem) : HelpOut :=
  if statusSeqOf stNow ≠ descSeq then
    if helpOther then ⟨.ret false, mem, stNow⟩ else ⟨.assertHelpOther, mem, stNow⟩
  else
    let succeeded := statusStateOf stNow == 1
    ⟨.ret succeeded, phase2 entries descPtr succeeded mem, stNow⟩

/-- Cas2Descriptor::cas2_help, sequential single-thread semantics.  The
slot is the (unique) thread's CASN slot that `descPtr` refers to; every
atomic load of the status cell yields `slot.status` until the status CAS,
mirroring the code's try_snapshot / try_read_status / phase 1 / status CAS
/ phase 2 sequence. -/
def cas2Help (slot : Cas2Slot) (mem : Mem) (descPtr : Nat) (helpOther : Bool) :
    HelpOut :=
  let descSeq := casWordSeq descPtr
  if statusSeqOf slot.status ≠ descSeq then
    if helpOther then ⟨.ret false, mem, slot.status⟩
    else ⟨.assertHelpOther, mem, slot.status⟩
  else if slot.entries.length < 2 then ⟨.assertNumEntries, mem, slot.status⟩
  else
    let cur := slot.status
    if statusStateOf cur = 0 then
      let toInstall := if helpOther then slot.entries.drop 1 else slot.entries
      match phase1 cur cur descPtr toInstall mem with
      | none => ⟨.diverge, mem, cur⟩
      | some (allOk, mem1) =>
        let newStatus :=
          if allOk then statusSucceeded descSeq
          else statusSetFailed (statusSucceeded descSeq)
        let st1 := casStatus cur cur newStatus
        cas2HelpTail slot.entries st1 descPtr descSeq helpOther mem1
    else
      cas2HelpTail slot.entries cur descPtr descSeq helpOther mem

/-- cas2 over two `AtomicUsize` targets (pub unsafe fn cas2): build the two
entries (`usize` values convert to words by `<< 2`), make the descriptor in
the calling thread's slot and run `cas2_help(desc, false)`. -/
def cas2Model (tid : Nat) (slot : Cas2Slot) (mem : Mem)
    (a b ea eb na nb : Nat) : Cas2Slot × HelpOut :=
  let e0 : MwEntry := ⟨a, usizeToCasWord ea, usizeToCasWord na⟩
  let e1 : MwEntry := ⟨b, usizeToCasWord eb, usizeToCasWord nb⟩
  let md := makeDescriptor tid slot [e0, e1]
  (md.1, cas2Help md.1 mem md.2 false)

/-! ### The load loop (Atom::load_word in src/mwcas.rs, Atomic::load in
src/mcas.rs)

`obs i` is the word observed by the i-th atomic load of the target cell
(an arbitrary stream, standing for any concurrent interleaving; helping in
between may change the cell).  `fuel` bounds the number of retries so the
loop is a total function; `none` means the loop was still running. -/

/-- Modelled from the spec: `RDCSS_DESCRIPTOR.read` (spec 4.5.4) is not
under src/.  Loop: load the word; while it carries the RDCSS mark (1),
help and retry; return the first non-tag-1 word together with the next
observation index. -/
def rdcssRead (obs : Nat → Nat) : Nat → Nat → Option (Nat × Nat)
  | 0, _ => none
  | fuel + 1, i =>
    let w := obs i
    if casWordMark w = 1 then rdcssRead obs fuel (i + 1) else some (w, i + 1)

/-- Atom::load_word: loop of `RDCSS_DESCRIPTOR.read`; if the word carries
the CASN mark (2), `cas2_help(word, true)` and retry, else return it. -/
def loadWordModel (obs : Nat → Nat) : Nat → Nat → Option Nat
  | 0, _ => none
  | fuel + 1, i =>
    match rdcssRead obs (fuel + 1) i with
    | none => none
    | some (w, j) =>
      if casWordMark w = 2 then loadWordModel obs fuel j else some w

/-- AtomicUsize::load: `load_word().into()`, i.e. the word shifted right
by 2. -/
def loadUsizeModel (obs : Nat → Nat) (fuel i : Nat) : Option Nat :=
  (loadWordModel obs fuel i).map casWordToUsize

/-- C1: uncontended success.  Two fresh `AtomicUsize` cells holding 0 (at
addresses 4 and 8), fresh thread slot: `cas2(&a, &b, 0, 0, 7, 9)` returns
true, the status cell is CAS-ed from `UNDECIDED(2)` to `SUCCEEDED(2)`, and
subsequent loads return 7 and 9 (the raw words hold `7 << 2` and `9 << 2`,
i.e. the descriptor pointer installed in phase 1 was replaced by the new
values in phase 2). -/
theorem c1_uncontended_success :
    (cas2Model 1 ⟨[], 0⟩ (fun _ => 0) 4 8 0 0 7 9).2.res = .ret true ∧
    (cas2Model 1 ⟨[], 0⟩ (fun _ => 0) 4 8 0 0 7 9).2.status = statusSucceeded 2 ∧
    loadUsizeModel (fun _ => (cas2Model 1 ⟨[], 0⟩ (fun _ => 0) 4 8 0 0 7 9).2.mem 4)
      1 0 = some 7 ∧
    loadUsizeModel (fun _ => (cas2Model 1 ⟨[], 0⟩ (fun _ => 0) 4 8 0 0 7 9).2.mem 8)
      1 0 = some 9 := by
  refine ⟨by decide, by decide, by decide, by decide⟩

/-- C3: evaluation at the failing input.  `cas2` on a single cell given
twice with equal expected/new pairs (`cas2(&a, &a, 0, 0, 7, 7)`, cell at
address 4 holding 0): in phase 1 the first entry installs the descriptor,
so the RDCSS attempt for the second entry returns the same CASN descriptor
pointer; the code then falls into the `swapped != entry_exp` branch, sets
the status to `FAILED(2)` and returns false, with the cell restored to 0 —
the claim (and spec 4.6.2) instead requires this case to be treated as a
successful installation that advances the loop. -/
theorem c3_own_descriptor_sets_failed :
    (cas2Model 1 ⟨[], 0⟩ (fun _ => 0) 4 4 0 0 7 7).2.res = .ret false ∧
    (cas2Model 1 ⟨[], 0⟩ (fun _ => 0) 4 4 0 0 7 7).2.status = statusFailed 2 ∧
    (cas2Model 1 ⟨[], 0⟩ (fun _ => 0) 4 4 0 0 7 7).2.mem 4 = 0 := by
  refine ⟨by decide, by decide, by decide⟩

theorem rdcssRead_no_tag1 (obs : Nat → Nat) :
    ∀ fuel i w j, rdcssRead obs fuel i = some (w, j) → casWordMark w ≠ 1 := by
  intro fuel
  induction fuel with
  | zero => intro i w j h; simp [rdcssRead] at h
  | succ n ih =>
    intro i w j h
    rw [rdcssRead] at h
    by_cases hm : casWordMark (obs i) = 1
    · rw [if_pos hm] at h
      exact ih _ _ _ h
    · rw [if_neg hm] at h
      obtain ⟨hw, _⟩ := Prod.mk.injEq .. ▸ Option.some.injEq .. ▸ h
      exact hw ▸ hm

/-- C6: the load loop never returns a descriptor-tagged word.  For every
observation stream (any concurrent interleaving of the target word), every
fuel bound and start index, if `load_word` returns a word then that word
carries neither the RDCSS mark 1 nor the CASN mark 2: any tag-1 word is
consumed inside `RDCSS_DESCRIPTOR.read` and any tag-2 word is helped and
retried. -/
theorem c6_load_never_tagged (obs : Nat → Nat) :
    ∀ fuel i w, loadWordModel obs fuel i = some w →
      casWordMark w ≠ 1 ∧ casWordMark w ≠ 2 := by
  intro fuel
  induction fuel with
  | zero => intro i w h; simp [loadWordModel] at h
  | succ n ih =>
    intro i w h
    rw [loadWordModel] at h
    cases hr : rdcssRead obs (n + 1) i with
    | none => rw [hr] at h; exact absurd h (by simp)
    | some p =>
      rw [hr] at h
      by_cases hm : casWordMark p.1 = 2
      · simp only [hm, if_pos rfl] at h
        exact ih _ _ h
      · simp only [if_neg hm] at h
        have hw : p.1 = w := by
          simpa using h
        exact ⟨hw ▸ rdcssRead_no_tag1 obs (n + 1) i p.1 p.2 (by simpa using hr),
          hw ▸ hm⟩

/-- C6 witness: the theorem applied to a constant observation stream
holding the untagged word `7 << 2`. -/
theorem c6_load_never_tagged_witness :
    casWordMark 28 ≠ 1 ∧ casWordMark 28 ≠ 2 :=
  c6_load_never_tagged (fun _ => 28) 1 0 28 (by decide)

/-! ### Supporting lemmas about the sequential model -/

theorem memUpd_same (m : Mem) (a v : Nat) : memUpd m a v a = v := by
  simp [memUpd]

theorem memUpd_other (m : Mem) (a v x : Nat) (h : x ≠ a) : memUpd m a v x = m x := by
  simp [memUpd, h]

theorem casWordMark_usize (u : Nat) : casWordMark (usizeToCasWord u) = 0 := by
  have h3 : (3 : Nat) = 2 ^ 2 - 1 := by norm_num
  rw [casWordMark, usizeToCasWord, h3]
  exact shl_and_mask u 2 2 (by omega)

theorem casWordMark_descriptor (tid s : Nat) :
    casWordMark (casWordWithMark (casWordNewDescriptorPtr tid s) 2) = 2 := by
  rw [casWordMark, casWordWithMark, casWordNewDescriptorPtr]
  exact pack_mark tid s 2 2 (by omega) (by omega)

theorem casWordSeq_descriptor (tid s : Nat) (hs : s < 2 ^ 48) :
    casWordSeq (casWordWithMark (casWordNewDescriptorPtr tid s) 2) = s := by
  rw [casWordSeq, casWordWithMark, casWordNewDescriptorPtr]
  exact pack_seq_marked tid s 2 2 (by omega)
    (by rw [Nat.shiftLeft_eq]; omega) (by omega)

theorem ne_of_casWordMark_ne {x y : Nat} (h : casWordMark x ≠ casWordMark y) :
    x ≠ y := fun e => h (congrArg _ e)

theorem makeDescriptor_eq (tid : Nat) (slot : Cas2Slot) (es : List MwEntry) :
    makeDescriptor tid slot es =
      (⟨sortEntries es, statusUndecided (statusSeqOf slot.status + 2)⟩,
       casWordWithMark
         (casWordNewDescriptorPtr tid (statusSeqOf slot.status + 2)) 2) := by
  have h2 : statusSeqOf slot.status + 1 + 1 = statusSeqOf slot.status + 2 := by
    omega
  simp only [makeDescriptor, incSeq, storeEntries, statusSeqOf_undecided, h2]

theorem sortEntries_pair (e0 e1 : MwEntry) :
    sortEntries [e0, e1] = if e0.addr ≤ e1.addr then [e0, e1] else [e1, e0] := by
  by_cases h : e0.addr ≤ e1.addr <;> simp [sortEntries, insertByAddr, h]

theorem insertByAddr_length (e : MwEntry) (l : List MwEntry) :
    (insertByAddr e l).length = l.length + 1 := by
  induction l with
  | nil => rfl
  | cons x xs ih =>
    rw [insertByAddr]
    by_cases h : x.addr ≤ e.addr
    · simp [h, ih]
    · simp [h]

theorem sortEntries_length (l : List MwEntry) :
    (sortEntries l).length = l.length := by
  suffices h : ∀ acc : List MwEntry,
      (l.foldl (fun acc e => insertByAddr e acc) acc).length
        = acc.length + l.length by
    simpa using h []
  induction l with
  | nil => intro acc; simp
  | cons x xs ih =>
    intro acc
    rw [List.foldl_cons, ih, insertByAddr_length]
    simp [List.length_cons]
    omega

theorem casStatus_self (e n : Nat) : casStatus e e n = n := by
  simp [casStatus]

theorem installEntry_match (cur descPtr : Nat) (mem : Mem) (e : MwEntry)
    (h : mem e.addr = e.exp) (hexp : casWordMark e.exp = 0) :
    installEntry cur cur descPtr mem e
      = some (true, memUpd mem e.addr descPtr) := by
  simp [installEntry, rdcssSeq, h, hexp]

theorem installEntry_mismatch (cur descPtr : Nat) (mem : Mem) (e : MwEntry)
    (h : mem e.addr ≠ e.exp) (hm : casWordMark (mem e.addr) ≠ 2) :
    installEntry cur cur descPtr mem e = some (false, mem) := by
  simp [installEntry, rdcssSeq, h, hm]

theorem phase1_nil (cur expS d : Nat) (mem : Mem) :
    phase1 cur expS d [] mem = some (true, mem) := rfl

theorem phase1_cons (cur expS d : Nat) (mem : Mem) (e : MwEntry)
    (es : List MwEntry) :
    phase1 cur expS d (e :: es) mem
      = match installEntry cur expS d mem e with
        | none => none
        | some (false, mem1) => some (false, mem1)
        | some (true, mem1) => phase1 cur expS d es mem1 := rfl

theorem phase2_nil (d : Nat) (s : Bool) (mem : Mem) :
    phase2 [] d s mem = mem := rfl

theorem phase2_cons (e : MwEntry) (es : List MwEntry) (d : Nat) (s : Bool)
    (mem : Mem) :
    phase2 (e :: es) d s mem
      = phase2 es d s
          (if mem e.addr = d
            then memUpd mem e.addr (if s then e.new else e.exp) else mem) := rfl

theorem statusSetFailed_succeeded (s : Nat) :
    statusSetFailed (statusSucceeded s) = statusFailed s := by
  rw [statusSetFailed, statusSeqOf_succeeded]

theorem cas2Help_stale (slot : Cas2Slot) (mem : Mem) (descPtr : Nat)
    (ho : Bool) (h : statusSeqOf slot.status ≠ casWordSeq descPtr) :
    cas2Help slot mem descPtr ho
      = if ho then ⟨.ret false, mem, slot.status⟩
        else ⟨.assertHelpOther, mem, slot.status⟩ := by
  rw [cas2Help, if_pos h]

theorem cas2HelpTail_run (entries : List MwEntry) (stNow descPtr descSeq : Nat)
    (ho : Bool) (mem : Mem) (h : statusSeqOf stNow = descSeq) :
    cas2HelpTail entries stNow descPtr descSeq ho mem
      = ⟨.ret (statusStateOf stNow == 1),
          phase2 entries descPtr (statusStateOf stNow == 1) mem, stNow⟩ := by
  rw [cas2HelpTail, if_neg (fun hn => hn h)]

theorem cas2Help_run (slot : Cas2Slot) (mem : Mem) (descPtr : Nat) (ho : Bool)
    (hseq : statusSeqOf slot.status = casWordSeq descPtr)
    (hlen : 2 ≤ slot.entries.length)
    (hstate : statusStateOf slot.status = 0) :
    cas2Help slot mem descPtr ho
      = match phase1 slot.status slot.status descPtr
            (if ho then slot.entries.drop 1 else slot.entries) mem with
        | none => ⟨.diverge, mem, slot.status⟩
        | some (allOk, mem1) =>
          cas2HelpTail slot.entries
            (if allOk then statusSucceeded (casWordSeq descPtr)
             else statusSetFailed (statusSucceeded (casWordSeq descPtr)))
            descPtr (casWordSeq descPtr) ho mem1 := by
  rw [cas2Help, if_neg (fun hn => hn hseq), if_neg (by omega), if_pos hstate]
  cases hp : phase1 slot.status slot.status descPtr
      (if ho then slot.entries.drop 1 else slot.entries) mem with
  | none => simp only [hp]
  | some p =>
    cases p with
    | mk allOk mem1 => simp only [hp, casStatus_self]

/-- Characterization of an owner run of cas2_help on a two-entry slot with
reachable status and clean target words: if it returns `false` then one of
the two entries mismatched against the pre-call memory, and the run leaves
both target words as they were before the call. -/
theorem cas2Help_pair (tid sq : Nat) (mem : Mem) (x y : MwEntry)
    (hxy : x.addr ≠ y.addr)
    (hmx : casWordMark (mem x.addr) ≠ 2) (hmy : casWordMark (mem y.addr) ≠ 2)
    (hex : casWordMark x.exp = 0) (hey : casWordMark y.exp = 0)
    (hseq : sq = casWordSeq (casWordWithMark (casWordNewDescriptorPtr tid sq) 2))
    (hfalse : (cas2Help ⟨[x, y], statusUndecided sq⟩ mem
        (casWordWithMark (casWordNewDescriptorPtr tid sq) 2) false).res
        = .ret false) :
    (mem x.addr ≠ x.exp ∨ mem y.addr ≠ y.exp) ∧
    (cas2Help ⟨[x, y], statusUndecided sq⟩ mem
        (casWordWithMark (casWordNewDescriptorPtr tid sq) 2) false).mem x.addr
      = mem x.addr ∧
    (cas2Help ⟨[x, y], statusUndecided sq⟩ mem
        (casWordWithMark (casWordNewDescriptorPtr tid sq) 2) false).mem y.addr
      = mem y.addr := by
  set desc := casWordWithMark (casWordNewDescriptorPtr tid sq) 2 with hdesc_def
  set cur := statusUndecided sq with hcur_def
  have hslotseq : statusSeqOf (Cas2Slot.mk [x, y] cur).status = casWordSeq desc := by
    rw [hcur_def, statusSeqOf_undecided]
    exact hseq
  have hrun := cas2Help_run ⟨[x, y], cur⟩ mem desc false hslotseq (by simp)
    (by rw [hcur_def]; exact statusStateOf_undecided sq)
  simp only [if_neg Bool.false_ne_true] at hrun
  have hdescm : casWordMark desc = 2 := casWordMark_descriptor _ _
  have hxd : mem x.addr ≠ desc :=
    ne_of_casWordMark_ne (by rw [hdescm]; exact hmx)
  have hyd : mem y.addr ≠ desc :=
    ne_of_casWordMark_ne (by rw [hdescm]; exact hmy)
  by_cases hA : mem x.addr = x.exp
  · have h1 := installEntry_match cur desc mem x hA hex
    have hy1 : memUpd mem x.addr desc y.addr = mem y.addr :=
      memUpd_other _ _ _ _ (Ne.symm hxy)
    by_cases hB : mem y.addr = y.exp
    · -- both entries install: the run returns true, contradiction
      have h2 := installEntry_match cur desc (memUpd mem x.addr desc) y
        (by rw [hy1]; exact hB) hey
      have hp : phase1 cur cur desc [x, y] mem
          = some (true, memUpd (memUpd mem x.addr desc) y.addr desc) := by
        rw [phase1_cons, h1]
        simp only
        rw [phase1_cons, h2]
        simp only
        rfl
      rw [hp] at hrun
      simp only [if_true, eq_self_iff_true] at hrun
      rw [cas2HelpTail_run _ _ _ _ _ _ (statusSeqOf_succeeded _),
        statusStateOf_succeeded] at hrun
      rw [hrun] at hfalse
      simp at hfalse
    · -- second entry mismatches
      have h2 := installEntry_mismatch cur desc (memUpd mem x.addr desc) y
        (by rw [hy1]; exact hB) (by rw [hy1]; exact hmy)
      have hp : phase1 cur cur desc [x, y] mem
          = some (false, memUpd mem x.addr desc) := by
        rw [phase1_cons, h1]
        simp only
        rw [phase1_cons, h2]
      rw [hp] at hrun
      simp only [Bool.false_eq_true, if_false] at hrun
      rw [statusSetFailed_succeeded,
        cas2HelpTail_run _ _ _ _ _ _ (statusSeqOf_failed _),
        statusStateOf_failed] at hrun
      have hbeq : ((2 : Nat) == 1) = false := by decide
      rw [hbeq] at hrun
      have hph2 : phase2 [x, y] desc false (memUpd mem x.addr desc)
          = memUpd (memUpd mem x.addr desc) x.addr x.exp := by
        rw [phase2_cons, if_pos (memUpd_same mem x.addr desc)]
        simp only [Bool.false_eq_true, if_false]
        rw [phase2_cons, if_neg, phase2_nil]
        rw [memUpd_other _ _ _ _ (Ne.symm hxy), hy1]
        exact hyd
      rw [hph2] at hrun
      refine ⟨Or.inr hB, ?_, ?_⟩
      · rw [hrun]
        show memUpd (memUpd mem x.addr desc) x.addr x.exp x.addr = mem x.addr
        rw [memUpd_same, hA]
      · rw [hrun]
        show memUpd (memUpd mem x.addr desc) x.addr x.exp y.addr = mem y.addr
        rw [memUpd_other _ _ _ _ (Ne.symm hxy), hy1]
  · -- first entry mismatches: memory is untouched
    have h1 := installEntry_mismatch cur desc mem x hA hmx
    have hp : phase1 cur cur desc [x, y] mem = some (false, mem) := by
      rw [phase1_cons, h1]
    rw [hp] at hrun
    simp only [Bool.false_eq_true, if_false] at hrun
    rw [statusSetFailed_succeeded,
      cas2HelpTail_run _ _ _ _ _ _ (statusSeqOf_failed _),
      statusStateOf_failed] at hrun
    have hbeq : ((2 : Nat) == 1) = false := by decide
    rw [hbeq] at hrun
    have hph2 : phase2 [x, y] desc false mem = mem := by
      rw [phase2_cons, if_neg hxd, phase2_cons, if_neg hyd, phase2_nil]
    rw [hph2] at hrun
    exact ⟨Or.inl hA, by rw [hrun], by rw [hrun]⟩

theorem cas2Model_eq (tid : Nat) (slot : Cas2Slot) (mem : Mem)
    (a b ea eb na nb : Nat) :
    cas2Model tid slot mem a b ea eb na nb
      = (⟨sortEntries [⟨a, usizeToCasWord ea, usizeToCasWord na⟩,
            ⟨b, usizeToCasWord eb, usizeToCasWord nb⟩],
          statusUndecided (statusSeqOf slot.status + 2)⟩,
        cas2Help
          ⟨sortEntries [⟨a, usizeToCasWord ea, usizeToCasWord na⟩,
              ⟨b, usizeToCasWord eb, usizeToCasWord nb⟩],
            statusUndecided (statusSeqOf slot.status + 2)⟩
          mem
          (casWordWithMark
            (casWordNewDescriptorPtr tid (statusSeqOf slot.status + 2)) 2)
          false) := by
  simp only [cas2Model, makeDescriptor_eq]

/-- C2: failure faithfulness.  For any uncontended `cas2` call on two
distinct `AtomicUsize` cells whose pre-call words are plain values (tag
neither 1 nor 2), if the call returns `false` then at the decision point at
least one of the two words differed from its expected value (in the
sequential run the logical cell values at the decision point are the
pre-call values), and after the call both target words hold their pre-call
values unchanged (phase 2 CASes any installed descriptor pointer back to
the expected value). -/
theorem c2_failure_faithfulness (tid : Nat) (slot : Cas2Slot) (mem : Mem)
    (a b ea eb na nb : Nat) (hab : a ≠ b)
    (hma1 : casWordMark (mem a) ≠ 1) (hma2 : casWordMark (mem a) ≠ 2)
    (hmb1 : casWordMark (mem b) ≠ 1) (hmb2 : casWordMark (mem b) ≠ 2)
    (hfalse : (cas2Model tid slot mem a b ea eb na nb).2.res = .ret false) :
    (mem a ≠ usizeToCasWord ea ∨ mem b ≠ usizeToCasWord eb) ∧
    (cas2Model tid slot mem a b ea eb na nb).2.mem a = mem a ∧
    (cas2Model tid slot mem a b ea eb na nb).2.mem b = mem b := by
  rw [cas2Model_eq] at hfalse ⊢
  simp only at hfalse ⊢
  set sq := statusSeqOf slot.status + 2 with hsq_def
  set E0 : MwEntry := ⟨a, usizeToCasWord ea, usizeToCasWord na⟩ with hE0
  set E1 : MwEntry := ⟨b, usizeToCasWord eb, usizeToCasWord nb⟩ with hE1
  set desc := casWordWithMark (casWordNewDescriptorPtr tid sq) 2 with hdesc
  by_cases hstale : sq = casWordSeq desc
  · -- the snapshot check passes; analyze the sorted pair
    have hsort : sortEntries [E0, E1] = if a ≤ b then [E0, E1] else [E1, E0] := by
      rw [sortEntries_pair, hE0, hE1]
    by_cases hord : a ≤ b
    · rw [hsort, if_pos hord] at hfalse ⊢
      have h := cas2Help_pair tid sq mem E0 E1 hab hma2 hmb2
        (casWordMark_usize ea) (casWordMark_usize eb) hstale hfalse
      exact ⟨h.1, h.2.1, h.2.2⟩
    · rw [hsort, if_neg hord] at hfalse ⊢
      have h := cas2Help_pair tid sq mem E1 E0 (Ne.symm hab) hmb2 hma2
        (casWordMark_usize eb) (casWordMark_usize ea) hstale hfalse
      exact ⟨h.1.symm, h.2.2, h.2.1⟩
  · -- encoding wrap: the snapshot fails and the owner run panics, so the
    -- hypothesis `ret false` is contradictory
    have hst : statusSeqOf
        (Cas2Slot.mk (sortEntries [E0, E1]) (statusUndecided sq)).status
        ≠ casWordSeq desc := by
      show statusSeqOf (statusUndecided sq) ≠ casWordSeq desc
      rw [statusSeqOf_undecided]
      exact hstale
    rw [cas2Help_stale _ _ _ _ hst] at hfalse
    simp at hfalse

/-- C2 witness: the spec's "failure on second word" scenario
(`a := 0, b := 5` at addresses 4 and 8; `cas2(&a, &b, 0, 0, 7, 9)` returns
false): the second word differed from its expected value and both raw
words are unchanged. -/
theorem c2_failure_faithfulness_witness :
    ((fun x : Nat => if x = 8 then 20 else 0) 4 ≠ usizeToCasWord 0 ∨
     (fun x : Nat => if x = 8 then 20 else 0) 8 ≠ usizeToCasWord 0) ∧
    (cas2Model 1 ⟨[], 0⟩ (fun x : Nat => if x = 8 then 20 else 0)
        4 8 0 0 7 9).2.mem 4 = (fun x : Nat => if x = 8 then 20 else 0) 4 ∧
    (cas2Model 1 ⟨[], 0⟩ (fun x : Nat => if x = 8 then 20 else 0)
        4 8 0 0 7 9).2.mem 8 = (fun x : Nat => if x = 8 then 20 else 0) 8 :=
  c2_failure_faithfulness 1 ⟨[], 0⟩ (fun x : Nat => if x = 8 then 20 else 0)
    4 8 0 0 7 9 (by decide) (by decide) (by decide) (by decide) (by decide)
    (by decide)

/-- C10: an owner call never trips the stale-descriptor asserts.  When
`cas2_help` runs with `help_other = false` on the descriptor pointer that
`make_descriptor` just returned on the same thread (as `cas2` and `cas_n`
do), with at least two entries and a non-wrapping sequence number, the
snapshot and both status reads observe the descriptor's own sequence
number, so neither `assert!(help_other)` branch (nor the
`assert!(num_entries >= 2)`) is reachable: the run either returns a
boolean decided by entry matching or keeps helping a foreign descriptor. -/
theorem c10_owner_never_asserts (tid : Nat) (slot : Cas2Slot) (mem : Mem)
    (es : List MwEntry) (hlen : 2 ≤ es.length)
    (hseq48 : statusSeqOf slot.status + 2 < 2 ^ 48) :
    (cas2Help (makeDescriptor tid slot es).1 mem
        (makeDescriptor tid slot es).2 false).res ≠ .assertHelpOther ∧
    (cas2Help (makeDescriptor tid slot es).1 mem
        (makeDescriptor tid slot es).2 false).res ≠ .assertNumEntries := by
  rw [makeDescriptor_eq]
  simp only
  set sq := statusSeqOf slot.status + 2 with hsq_def
  set desc := casWordWithMark (casWordNewDescriptorPtr tid sq) 2 with hdesc
  have hs : casWordSeq desc = sq := casWordSeq_descriptor tid sq hseq48
  have hslotseq : statusSeqOf
      (Cas2Slot.mk (sortEntries es) (statusUndecided sq)).status
      = casWordSeq desc := by
    show statusSeqOf (statusUndecided sq) = casWordSeq desc
    rw [statusSeqOf_undecided, hs]
  have hlen2 : 2 ≤ (Cas2Slot.mk (sortEntries es) (statusUndecided sq)).entries.length := by
    show 2 ≤ (sortEntries es).length
    rw [sortEntries_length]
    exact hlen
  have hrun := cas2Help_run ⟨sortEntries es, statusUndecided sq⟩ mem desc false
    hslotseq hlen2 (statusStateOf_undecided sq)
  simp only [if_neg Bool.false_ne_true] at hrun
  rw [hrun]
  cases hp : phase1 (statusUndecided sq) (statusUndecided sq) desc
      (sortEntries es) mem with
  | none => simp
  | some p =>
    cases p with
    | mk allOk mem1 =>
      cases allOk with
      | true =>
        simp only [if_true, eq_self_iff_true,
          cas2HelpTail_run _ _ _ _ _ _ (statusSeqOf_succeeded _)]
        simp
      | false =>
        simp only [Bool.false_eq_true, if_false, statusSetFailed_succeeded,
          cas2HelpTail_run _ _ _ _ _ _ (statusSeqOf_failed _)]
        simp

/-- C10 witness: the owner run of the uncontended success scenario neither
panics on the stale-descriptor asserts. -/
theorem c10_owner_never_asserts_witness :
    (cas2Help (makeDescriptor 1 ⟨[], 0⟩ [⟨4, 0, 28⟩, ⟨8, 0, 36⟩]).1
        (fun _ => 0) (makeDescriptor 1 ⟨[], 0⟩ [⟨4, 0, 28⟩, ⟨8, 0, 36⟩]).2
        false).res ≠ .assertHelpOther ∧
    (cas2Help (makeDescriptor 1 ⟨[], 0⟩ [⟨4, 0, 28⟩, ⟨8, 0, 36⟩]).1
        (fun _ => 0) (makeDescriptor 1 ⟨[], 0⟩ [⟨4, 0, 28⟩, ⟨8, 0, 36⟩]).2
        false).res ≠ .assertNumEntries :=
  c10_owner_never_asserts 1 ⟨[], 0⟩ (fun _ => 0) [⟨4, 0, 28⟩, ⟨8, 0, 36⟩]
    (by decide) (by decide)

/-! ### Entry placement in src/mcas.rs make_descriptor (C4) -/

/-- Entry placement of Cas2Descriptor::make_descriptor in src/mcas.rs:
the slot's two entry cells keep their previous contents `slot0`, `slot1`;
when `addr0 <= addr1` the chosen references are `(&entries[0],
&entries[1])`, otherwise `(&entries[1], &entries[1])` — both alias index
1.  Then addr0's entry is stored through the first reference and addr1's
through the second, so in the second case index 0 is left stale and index
1 ends up holding addr1's entry. -/
def mcasStoreEntries (slot0 slot1 : MwEntry) (a0 a1 : MwEntry) :
    MwEntry × MwEntry :=
  if a0.addr ≤ a1.addr then (a0, a1) else (slot0, a1)

/-- C4: evaluation at the failing input.  Calling src/mcas.rs
make_descriptor with `addr0 = 8 > addr1 = 4` (stale slot contents at
addresses 99 and 98) leaves entry index 0 stale and stores only addr1's
entry at index 1: the slot does not hold the two given entries sorted by
address at indices 0 and 1 as the claim (and the comment `// sort and
store addresses` in the code itself) requires. -/
theorem c4_mcas_entry_typo :
    mcasStoreEntries ⟨99, 1, 1⟩ ⟨98, 1, 1⟩ ⟨8, 2, 3⟩ ⟨4, 5, 6⟩
      = (⟨99, 1, 1⟩, ⟨4, 5, 6⟩) ∧
    (mcasStoreEntries ⟨99, 1, 1⟩ ⟨98, 1, 1⟩ ⟨8, 2, 3⟩ ⟨4, 5, 6⟩).1
      ≠ ⟨4, 5, 6⟩ ∧
    (mcasStoreEntries ⟨99, 1, 1⟩ ⟨98, 1, 1⟩ ⟨8, 2, 3⟩ ⟨4, 5, 6⟩).2
      ≠ ⟨8, 2, 3⟩ := by
  refine ⟨by decide, by decide, by decide⟩

/-! ### RDCSS descriptor publication (src/rdcss.rs new_ptr, C7) -/

/-- Per-thread RDCSS descriptor slot (struct PerThreadRDCSSDescriptor):
the five fields and the `SeqNumberGenerator` counter. -/
structure RdcssSlot where
  seqCounter : Nat
  addr0 : Nat
  addr1 : Nat
  exp0 : Nat
  exp1 : Nat
  newData : Nat
deriving DecidableEq

/-- RDCSSDescriptor::new_ptr, first half: `seq_number.inc()` (the counter
was initialized to 0 by `SeqNumberGenerator::new`, and `inc` stores and
returns `old + 1`), then the five field stores. -/
def newPtrPublish (s : RdcssSlot) (a0 a1 e0 e1 n1 : Nat) : RdcssSlot :=
  { seqCounter := s.seqCounter + 1, addr0 := a0, addr1 := a1, exp0 := e0,
    exp1 := e1, newData := n1 }

/-- RDCSSDescriptor::new_ptr, second half: `seq_number.inc()` again and
`DescriptorPtr::new(thread_id, new_seq).with_mark(DESCRIPTOR_MARKER)`
with `DESCRIPTOR_MARKER = 1`. -/
def newPtrFinish (tid : Nat) (s : RdcssSlot) : RdcssSlot × Nat :=
  ({ s with seqCounter := s.seqCounter + 1 },
   markedPtrWithMark (markedPtrNew tid (s.seqCounter + 1)) 1)

/-- RDCSSDescriptor::new_ptr, sequential single-thread semantics. -/
def newPtrModel (tid : Nat) (s : RdcssSlot) (a0 a1 e0 e1 n1 : Nat) :
    RdcssSlot × Nat :=
  newPtrFinish tid (newPtrPublish s a0 a1 e0 e1 n1)

/-- C7 counterexample: on a fresh RDCSS slot (counter 0) the first
`seq_number.inc()` of new_ptr yields 1, which is odd — not the even
"in-construction" value the claim states — and the returned descriptor
pointer carries seq 2, which is even, not odd. -/
theorem c7_parity_counterexample :
    ¬ ((newPtrPublish ⟨0, 0, 0, 0, 0, 0⟩ 10 11 12 13 14).seqCounter % 2 = 0 ∧
       markedPtrSeq (newPtrModel 3 ⟨0, 0, 0, 0, 0, 0⟩ 10 11 12 13 14).2 % 2
         = 1) := by
  decide

theorem markedPtr_descriptor_seq (tid c : Nat) (h : c < 2 ^ 47) :
    markedPtrSeq (markedPtrWithMark (markedPtrNew tid c) 1) = c := by
  rw [markedPtrSeq, markedPtrWithMark, markedPtrNew]
  exact pack_seq_marked tid c 3 1 (by omega)
    (by rw [Nat.shiftLeft_eq]; omega) (by omega)

theorem markedPtr_descriptor_tid (tid c : Nat) (htid : tid < 2 ^ 14)
    (h : c < 2 ^ 47) :
    markedPtrTid (markedPtrWithMark (markedPtrNew tid c) 1) = tid := by
  rw [markedPtrTid, markedPtrWithMark, markedPtrNew]
  exact pack_tid_marked tid c 3 1 htid
    (by rw [Nat.shiftLeft_eq]; omega) (by omega)

theorem markedPtr_descriptor_mark (tid c : Nat) :
    markedPtrMark (markedPtrWithMark (markedPtrNew tid c) 1) = 1 := by
  rw [markedPtrMark, markedPtrWithMark, markedPtrNew]
  exact pack_mark tid c 3 1 (by omega) (by omega)

/-- C7 (amended): the two-increment protocol of new_ptr with the parities
reversed with respect to the claim.  From a slot whose counter is even
(every quiescent state: fresh slots start at 0 and each call adds 2), the
first increment makes the counter odd (publishing "in-construction"), the
five fields are stored, the second increment makes it even again
("ready"), and the returned descriptor pointer carries that even sequence
number together with the RDCSS mark 1. -/
theorem c7_two_increment_amended (tid : Nat) (s : RdcssSlot)
    (a0 a1 e0 e1 n1 : Nat) (heven : s.seqCounter % 2 = 0)
    (htid : tid < 2 ^ 14) (hseq : s.seqCounter + 2 < 2 ^ 47) :
    (newPtrPublish s a0 a1 e0 e1 n1).seqCounter = s.seqCounter + 1 ∧
    (newPtrPublish s a0 a1 e0 e1 n1).seqCounter % 2 = 1 ∧
    (newPtrPublish s a0 a1 e0 e1 n1).addr0 = a0 ∧
    (newPtrPublish s a0 a1 e0 e1 n1).addr1 = a1 ∧
    (newPtrPublish s a0 a1 e0 e1 n1).exp0 = e0 ∧
    (newPtrPublish s a0 a1 e0 e1 n1).exp1 = e1 ∧
    (newPtrPublish s a0 a1 e0 e1 n1).newData = n1 ∧
    (newPtrModel tid s a0 a1 e0 e1 n1).1.seqCounter = s.seqCounter + 2 ∧
    (newPtrModel tid s a0 a1 e0 e1 n1).1.seqCounter % 2 = 0 ∧
    markedPtrSeq (newPtrModel tid s a0 a1 e0 e1 n1).2 = s.seqCounter + 2 ∧
    markedPtrTid (newPtrModel tid s a0 a1 e0 e1 n1).2 = tid ∧
    markedPtrMark (newPtrModel tid s a0 a1 e0 e1 n1).2 = 1 := by
  have hplus : s.seqCounter + 1 + 1 = s.seqCounter + 2 := by omega
  refine ⟨rfl, ?_, rfl, rfl, rfl, rfl, rfl, ?_, ?_, ?_, ?_, ?_⟩
  · show (s.seqCounter + 1) % 2 = 1
    omega
  · show s.seqCounter + 1 + 1 = s.seqCounter + 2
    omega
  · show (s.seqCounter + 1 + 1) % 2 = 0
    omega
  · show markedPtrSeq
      (markedPtrWithMark (markedPtrNew tid (s.seqCounter + 1 + 1)) 1)
      = s.seqCounter + 2
    rw [hplus]
    exact markedPtr_descriptor_seq tid _ hseq
  · show markedPtrTid
      (markedPtrWithMark (markedPtrNew tid (s.seqCounter + 1 + 1)) 1) = tid
    rw [hplus]
    exact markedPtr_descriptor_tid tid _ htid hseq
  · exact markedPtr_descriptor_mark tid _

/-- C7 witness: the amended protocol on a fresh slot. -/
theorem c7_two_increment_witness :
    (newPtrPublish ⟨0, 0, 0, 0, 0, 0⟩ 10 11 12 13 14).seqCounter % 2 = 1 ∧
    markedPtrSeq (newPtrModel 3 ⟨0, 0, 0, 0, 0, 0⟩ 10 11 12 13 14).2 = 2 := by
  have h := c7_two_increment_amended 3 ⟨0, 0, 0, 0, 0, 0⟩ 10 11 12 13 14
    (by decide) (by decide) (by decide)
  exact ⟨h.2.1, h.2.2.2.2.2.2.2.2.2.1⟩

/-! ### cas_n input validation (src/mwcas.rs, C8) -/

/-- MAX_ENTRIES in src/mwcas.rs. -/
def maxEntries : Nat := 8

/-- Input validation panics on the `cas_n` path: the three asserts of
`cas_n` (`addresses.len() == expected.len()`,
`expected.len() == new.len()`, `addresses.len() <= MAX_ENTRIES`) in
source order, followed by the `assert!(num_entries >= 2)` of
`try_snapshot` reached through `cas2_help` with
`num_entries = addresses.len()`.  Returns `true` iff some assert
panics. -/
def casNAsserts (numAddrs numExps numNews : Nat) : Bool :=
  if numAddrs ≠ numExps then true
  else if numExps ≠ numNews then true
  else if ¬ numAddrs ≤ maxEntries then true
  else if numAddrs < 2 then true
  else false

/-- C8: `cas_n` panics exactly on mismatched slice lengths or an entry
count outside [2, MAX_ENTRIES] with MAX_ENTRIES = 8; inputs satisfying
the preconditions trigger no input-validation panic. -/
theorem c8_casn_validation (na ne nn : Nat) :
    casNAsserts na ne nn = true
      ↔ (na ≠ ne ∨ ne ≠ nn ∨ na < 2 ∨ maxEntries < na) := by
  rw [casNAsserts, maxEntries]
  split_ifs with h1 h2 h3 h4 <;> simp <;> omega

/-! ### Thread-id management (src/thread_local.rs, C9) -/

/-- ThreadId::new: `NEXT_THREAD_ID.fetch_add(1, Relaxed)` returns the
previous counter value `curr` (the global counter starts at 1); the call
panics when `curr >= U14_MAX - 1` with `U14_MAX = 16383`, else the thread
id is `curr as u16`.  The argument is the counter value before the call;
the result is `none` on panic, else `some (id, counter afterwards)`. -/
def threadIdNew (c : Nat) : Option (Nat × Nat) :=
  if 16383 - 1 ≤ c then none else some (c % 65536, c + 1)

/-- C9 counterexample: thread ids come from a monotone counter, not a
slot registry.  The first two registrations (from the initial counter
value 1) return ids 1 then 2 — a registration after the first thread
exits does not reacquire the freed id 1 — and from counter 16382 (after
16381 registrations, regardless of how many of those threads have since
exited) registration panics even though, per the claim, every slot would
be free again. -/
theorem c9_counterexample :
    threadIdNew 1 = some (1, 2) ∧ threadIdNew 2 = some (2, 3) ∧
    threadIdNew 16382 = none := by
  refine ⟨by decide, by decide, by decide⟩

/-- C9 (amended): a thread acquires its id by a fetch-add on a global
monotone counter (initially 1): from counter value c < 16382 it gets id
`c` and the counter becomes `c + 1`; ids of successive registrations
strictly increase, so an id is never reused, and registration fails
fatally as soon as the counter reaches 16382 — thread exit does not
release anything. -/
theorem c9_thread_id_amended (c : Nat) :
    (c < 16382 → threadIdNew c = some (c % 65536, c + 1)) ∧
    (16382 ≤ c → threadIdNew c = none) ∧
    (∀ i1 c1 i2 c2, threadIdNew c = some (i1, c1) →
      threadIdNew c1 = some (i2, c2) → i1 < i2) := by
  refine ⟨fun h => ?_, fun h => ?_, ?_⟩
  · rw [threadIdNew, if_neg (by omega)]
  · rw [threadIdNew, if_pos (by omega)]
  · intro i1 c1 i2 c2 h1 h2
    rw [threadIdNew] at h1 h2
    by_cases hc : 16383 - 1 ≤ c
    · rw [if_pos hc] at h1
      exact absurd h1 (by simp)
    · rw [if_neg hc] at h1
      simp at h1
      by_cases hc1 : 16383 - 1 ≤ c1
      · rw [if_pos hc1] at h2
        exact absurd h2 (by simp)
      · rw [if_neg hc1] at h2
        simp at h2
        omega

/-- C9 witness: the amended acquisition rule at counter value 5. -/
theorem c9_thread_id_witness : threadIdNew 5 = some (5 % 65536, 5 + 1) :=
  (c9_thread_id_amended 5).1 (by omega)

end MwCas
